import Mathlib

/-!
# Verification of the termagick terminal preview subsystem

Shallow embedding of `terminal_preview.go`: capability detection from the
process environment, the three transmitters (`sendKittyPNG`,
`sendInlineImagePNG`, `sendSixelPNG`) and the orchestrator `PreviewWand`.

The terminal output stream is modelled explicitly: a `W` value records the
index of the next `stdout.Write` call, the list of successfully written
strings, and the list of external processes that were started.  A write
oracle `fail : Nat → Bool` decides whether the n-th write call fails (a
failed write appends nothing).  External renderer processes are modelled by
a `World` record giving each candidate's success flag and stdout contents.
-/

namespace Termagick

/-- A process environment: association list of variable name to value.
`os.Getenv` on a missing variable returns the empty string. -/
abbrev Env := List (String × String)

def getEnv (env : Env) (k : String) : String := (env.lookup k).getD ""

/-- Does `sub` occur as a contiguous run inside `s`? -/
def listContains : List Char → List Char → Bool
  | [], sub => sub.isEmpty
  | s@(_ :: rest), sub => sub.isPrefixOf s || listContains rest sub

/-- `strings.Contains(s, sub)` from Go, on the underlying character lists. -/
def goContains (s sub : String) : Bool := listContains s.data sub.data

/-- `strings.ToLower` on the ASCII range (the range the detection strings
live in), as a plain character map so that it evaluates by kernel
reduction. -/
def goToLower (s : String) : String := String.mk (s.data.map Char.toLower)

/-! ## Capability detection (`isKitty`, `isInlineImageCapable`, `isSixelCapable`) -/

def isKitty (env : Env) : Bool :=
  if getEnv env "KITTY_WINDOW_ID" != "" then true
  else
    let term := goToLower (getEnv env "TERM")
    if goContains term "kitty" || goContains term "ghostty" || goContains term "ghost" then true
    else if getEnv env "KONSOLE_VERSION" != "" then true
    else false

def isInlineImageCapable (env : Env) : Bool :=
  let tp := getEnv env "TERM_PROGRAM"
  if tp == "iTerm.app" || tp == "WezTerm" || tp == "Warp" || tp == "Hyper" ||
     tp == "vscode" || tp == "VSCode" || tp == "Tabby" || tp == "Bobcat" then true
  else
    let term := goToLower (getEnv env "TERM")
    if goContains term "wezterm" || goContains term "warp" || goContains term "tabby" ||
       goContains term "vscode" || goContains term "wez" then true
    else if getEnv env "ITERM_SESSION_ID" != "" || getEnv env "TERM_PROGRAM" == "iTerm.app" then true
    else false

def isSixelCapable (env : Env) : Bool :=
  if getEnv env "SIXEL_PREVIEW" == "1" then true
  else
    let term := goToLower (getEnv env "TERM")
    if goContains term "foot" || goContains term "st" || goContains term "linux" then true
    else if getEnv env "WT_SESSION" != "" then true
    else false

def PreviewSupported (env : Env) : Bool :=
  isKitty env || isInlineImageCapable env || isSixelCapable env

/-! ## Base64 (standard encoding with padding, `encoding/base64.StdEncoding`) -/

def base64Alphabet : String :=
  "ABCDEFGHIJKLMNOPQRSTUVWXYZabcdefghijklmnopqrstuvwxyz0123456789+/"

def b64Char (n : Nat) : Char := base64Alphabet.data.getD n 'A'

/-- Bytes are `Nat`s below 256. -/
def base64Encode : List Nat → List Char
  | [] => []
  | [b0] =>
      [b64Char (b0 / 4), b64Char (b0 % 4 * 16), '=', '=']
  | [b0, b1] =>
      [b64Char (b0 / 4), b64Char (b0 % 4 * 16 + b1 / 16), b64Char (b1 % 16 * 4), '=']
  | b0 :: b1 :: b2 :: rest =>
      b64Char (b0 / 4) :: b64Char (b0 % 4 * 16 + b1 / 16) ::
      b64Char (b1 % 16 * 4 + b2 / 64) :: b64Char (b2 % 64) :: base64Encode rest

/-! ## `strconv.Atoi` -/

def digitsVal : List Char → Nat → Option Nat
  | [], acc => some acc
  | c :: rest, acc =>
      if c.isDigit then digitsVal rest (acc * 10 + (c.toNat - '0'.toNat)) else none

def digitsToNat (l : List Char) : Option Nat :=
  if l.isEmpty then none else digitsVal l 0

/-- `math.MaxInt64`: the build targets linux/amd64 (see the Dockerfile), so
Go's `int` is 64 bits wide. -/
def int64Max : Nat := 9223372036854775807

/-- `strconv.Atoi`: optional sign followed by a non-empty digit run, erroring
(`none`) when the value lies outside the 64-bit int range (`ErrRange`) —
`Atoi` then returns a non-nil error, which is all the caller checks. -/
def goAtoi (s : String) : Option Int :=
  match s.data with
  | [] => none
  | c :: rest =>
    if c == '+' then
      (digitsToNat rest).bind
        (fun n => if n ≤ int64Max then some (Int.ofNat n) else none)
    else if c == '-' then
      (digitsToNat rest).bind
        (fun n => if n ≤ int64Max + 1 then some (-(n : Int)) else none)
    else
      (digitsToNat (c :: rest)).bind
        (fun n => if n ≤ int64Max then some (Int.ofNat n) else none)

/-! ## The output stream model -/

/-- Errors produced by the subsystem.  `writeFail n` stands for the error the
n-th `stdout.Write` call returned; the `…Failed` constructors are the
`fmt.Errorf("… preview failed: %w", err)` wrappers of `PreviewWand`. -/
inductive Err where
  | noData : Err
  | writeFail (n : Nat) : Err
  | nilWand : Err
  | noProtocol : Err
  | emptyBlob : Err
  | noMatch : Err
  | kittyFailed (e : Err) : Err
  | inlineFailed (e : Err) : Err
  | sixelFailed (e : Err) : Err
  deriving DecidableEq

/-- The Go error message associated with each `Err`. -/
def errMessage : Err → String
  | .noData => "no data"
  | .writeFail _ => "write failed"
  | .nilWand => "nil wand"
  | .noProtocol => "no supported terminal preview protocol detected"
  | .emptyBlob => "empty image blob"
  | .noMatch => "no preview protocol matched"
  | .kittyFailed e => "kitty preview failed: " ++ errMessage e
  | .inlineFailed e => "inline image preview failed: " ++ errMessage e
  | .sixelFailed e => "sixel preview failed: " ++ errMessage e

/-- State of the terminal output stream: index of the next write call, the
strings successfully written so far, and the external processes started. -/
structure W where
  idx : Nat
  out : List String
  procs : List String
  deriving DecidableEq

def W0 : W := ⟨0, [], []⟩

/-- One `stdout.Write` call, under the write oracle `fail`. -/
def wwrite (fail : Nat → Bool) (s : String) (w : W) : Option Err × W :=
  if fail w.idx then (some (.writeFail w.idx), { w with idx := w.idx + 1 })
  else (none, { w with idx := w.idx + 1, out := w.out ++ [s] })

/-- `fmt.Println()`: writes a newline, its error is ignored. -/
def printlnW (fail : Nat → Bool) (w : W) : W := (wwrite fail "\n" w).2

/-- `for i := 0; i < n; i++ { fmt.Println() }` -/
def printlnN (fail : Nat → Bool) : Nat → W → W
  | 0, w => w
  | n + 1, w => printlnN fail n (printlnW fail w)

/-- Behaviour of the external renderer processes. -/
structure World where
  img2sixelOk : Bool
  img2sixelOut : String
  chafaOk : Bool
  chafaOut : String

/-- Running an external process whose stdout is the terminal stream: the
invocation is recorded; on success its output lands on the stream. -/
def runProc (name : String) (ok : Bool) (out : String) (w : W) : Bool × W :=
  if ok then (true, { w with out := w.out ++ [out], procs := w.procs ++ [name] })
  else (false, { w with procs := w.procs ++ [name] })

def noFail : Nat → Bool := fun _ => false

/-! ## Kitty transmitter -/

def chunkSize : Nat := 4096

def kittyDim (env : Env) (key : String) (dflt : Nat) : Nat :=
  let v := getEnv env key
  if v != "" then
    match goAtoi v with
    | some n => if 0 < n then n.toNat else dflt
    | none => dflt
  else dflt

def kittyCols (env : Env) : Nat := kittyDim env "KITTY_PREVIEW_COLS" 40

def kittyRows (env : Env) : Nat := kittyDim env "KITTY_PREVIEW_ROWS" 20

/-- The control-sequence header written for one chunk: the first chunk
carries the full key set and placement, later chunks only `m`. -/
def kittyHeader (cols rows : Nat) (first : Bool) (mVal : String)
    (chunk : List Char) : String :=
  if first then
    "\x1b_Ga=T,f=100,t=d,q=2,c=" ++ toString cols ++ ",r=" ++ toString rows ++
      ",m=" ++ mVal ++ ";" ++ String.mk chunk ++ "\x1b\\"
  else
    "\x1b_G" ++ "m=" ++ mVal ++ ";" ++ String.mk chunk ++ "\x1b\\"

/-- The chunking loop of `sendKittyPNG`: `pos` advancing by `chunkSize` over
the encoded payload is modelled by take/drop on the remaining characters.
The extra `fuel` argument only bounds the number of iterations so that the
recursion is structural; every iteration consumes at least one character, so
the `enc.length` fuel supplied by `sendKittyPNG` is never exhausted. -/
def kittyLoop (cols rows : Nat) (fail : Nat → Bool) :
    Nat → List Char → Bool → W → Option Err × W
  | _, [], _, w => (none, w)
  | 0, _ :: _, _, w => (none, w)
  | fuel + 1, rem@(_ :: _), first, w =>
    let chunk := rem.take chunkSize
    let rest := rem.drop chunkSize
    let mVal := if rest.isEmpty then "0" else "1"
    match wwrite fail (kittyHeader cols rows first mVal chunk) w with
    | (some e, w1) => (some e, w1)
    | (none, w1) => kittyLoop cols rows fail fuel rest false w1

def sendKittyPNG (env : Env) (fail : Nat → Bool) (data : List Nat) (w : W) :
    Option Err × W :=
  if data.length = 0 then (some .noData, w)
  else
    let enc := base64Encode data
    let cols := kittyCols env
    let rows := kittyRows env
    match kittyLoop cols rows fail enc.length enc true w with
    | (some e, w1) => (some e, w1)
    | (none, w1) => (none, printlnW fail w1)

/-! ## Inline-OSC transmitter -/

def sendInlineImagePNG (fail : Nat → Bool) (data : List Nat) (w : W) :
    Option Err × W :=
  if data.length = 0 then (some .noData, w)
  else
    let enc := base64Encode data
    let seq := "\x1b]1337;File=inline=1;size=" ++ toString data.length ++ ":" ++
      String.mk enc ++ "\x07"
    match wwrite fail seq w with
    | (e, w1) => (e, printlnN fail 20 w1)

/-! ## Sixel transmitter -/

def sendSixelPNG (fail : Nat → Bool) (world : World) (data : List Nat) (w : W) :
    Option Err × W :=
  if data.length = 0 then (some .noData, w)
  else
    match runProc "img2sixel" world.img2sixelOk world.img2sixelOut w with
    | (true, w1) => (none, printlnN fail 20 w1)
    | (false, w1) =>
      match runProc "chafa" world.chafaOk world.chafaOut w1 with
      | (true, w2) => (none, printlnN fail 20 w2)
      | (false, w2) =>
        let enc := base64Encode data
        let seq := "\x1b]1337;File=name=preview.png;inline=1;size=" ++
          toString data.length ++ ":" ++ String.mk enc ++ "\x07"
        match wwrite fail seq w2 with
        | (e, w3) => (e, printlnN fail 20 w3)

/-! ## Orchestrator -/

inductive Proto where
  | kitty : Proto
  | inlineOSC : Proto
  | sixel : Proto
  deriving DecidableEq

/-- `PreviewWand`.  The wand is modelled as `Option blob` (`none` = nil
pointer; cloning and PNG re-encoding are assumed to succeed and yield
`blob`).  Besides the returned error and the final stream state, the list of
transmitter attempts (protocol, result) is returned, in order. -/
def PreviewWand (env : Env) (fail : Nat → Bool) (world : World)
    (wand : Option (List Nat)) (w : W) :
    Option Err × W × List (Proto × Option Err) :=
  match wand with
  | none => (some .nilWand, w, [])
  | some blob =>
    if PreviewSupported env = false then (some .noProtocol, w, [])
    else if blob.length = 0 then (some .emptyBlob, w, [])
    else if isKitty env then
      match sendKittyPNG env fail blob w with
      | (none, w1) => (none, w1, [(.kitty, none)])
      | (some e, w1) =>
        match (if isInlineImageCapable env then
                some (sendInlineImagePNG fail blob w1) else none) with
        | some (none, w2) => (none, w2, [(.kitty, some e), (.inlineOSC, none)])
        | some (some e2, w2) =>
          match (if isSixelCapable env then
                  some (sendSixelPNG fail world blob w2) else none) with
          | some (none, w3) =>
              (none, w3, [(.kitty, some e), (.inlineOSC, some e2), (.sixel, none)])
          | some (some e3, w3) =>
              (some (.kittyFailed e), w3,
                [(.kitty, some e), (.inlineOSC, some e2), (.sixel, some e3)])
          | none => (some (.kittyFailed e), w2, [(.kitty, some e), (.inlineOSC, some e2)])
        | none =>
          match (if isSixelCapable env then
                  some (sendSixelPNG fail world blob w1) else none) with
          | some (none, w3) => (none, w3, [(.kitty, some e), (.sixel, none)])
          | some (some e3, w3) =>
              (some (.kittyFailed e), w3, [(.kitty, some e), (.sixel, some e3)])
          | none => (some (.kittyFailed e), w1, [(.kitty, some e)])
    else if isInlineImageCapable env then
      match sendInlineImagePNG fail blob w with
      | (none, w1) => (none, w1, [(.inlineOSC, none)])
      | (some e, w1) =>
        match (if isSixelCapable env then
                some (sendSixelPNG fail world blob w1) else none) with
        | some (none, w2) => (none, w2, [(.inlineOSC, some e), (.sixel, none)])
        | some (some e2, w2) =>
            (some (.inlineFailed e), w2, [(.inlineOSC, some e), (.sixel, some e2)])
        | none => (some (.inlineFailed e), w1, [(.inlineOSC, some e)])
    else if isSixelCapable env then
      match sendSixelPNG fail world blob w with
      | (none, w1) => (none, w1, [(.sixel, none)])
      | (some e, w1) => (some (.sixelFailed e), w1, [(.sixel, some e)])
    else (some .noMatch, w, [])

/-! ## Spec-side wire formats

These definitions follow the specification's wording for the wire formats
(`§7 Wire formats`), to be compared with the output the embedded code
produces.  A Kitty control sequence is
`ESC _G <keys> ; <base64-chunk> ESC \`; the first chunk carries the keys
`a=T,f=100,t=d,q=2,c=<cols>,r=<rows>,m=<0|1>` and continuation chunks carry
`m=<0|1>` only; `m` is `1` on every chunk but the last and `0` on the last. -/

def kittySpecSeq (keys : String) (chunk : List Char) : String :=
  "\x1b_G" ++ keys ++ ";" ++ String.mk chunk ++ "\x1b\\"

def firstKeys (cols rows : Nat) (m : String) : String :=
  "a=T,f=100,t=d,q=2,c=" ++ toString cols ++ ",r=" ++ toString rows ++ ",m=" ++ m

def contKeys (m : String) : String := "m=" ++ m

/-- The spec-side list of Kitty control sequences for a list of chunks. -/
def kittySpecAux (cols rows : Nat) : Bool → List (List Char) → List String
  | _, [] => []
  | first, [c] =>
      [kittySpecSeq (if first then firstKeys cols rows "0" else contKeys "0") c]
  | first, c :: cs =>
      kittySpecSeq (if first then firstKeys cols rows "1" else contKeys "1") c ::
        kittySpecAux cols rows false cs

/-- Splitting a payload into chunks of at most `chunkSize` characters. -/
def chunksOf : List Char → List (List Char)
  | [] => []
  | l@(_ :: _) => l.take chunkSize :: chunksOf (l.drop chunkSize)
  termination_by l => l.length
  decreasing_by simp_all [chunkSize]; omega

/-- Spec-side OSC-1337 inline file sequence:
`ESC ] 1337 ; File=inline=1;size=<decoded-byte-length> : <base64> BEL`. -/
def inlineOSCSpecSeq (rawLen : Nat) (payload : String) : String :=
  "\x1b]1337;File=inline=1;size=" ++ toString rawLen ++ ":" ++ payload ++ "\x07"

/-! ## Helper lemmas: streams and newlines -/

theorem W.eq_of (a b : W) (h1 : a.idx = b.idx) (h2 : a.out = b.out)
    (h3 : a.procs = b.procs) : a = b := by
  cases a; cases b; simp_all

theorem printlnW_cases (fail : Nat → Bool) (w : W) :
    printlnW fail w = { w with idx := w.idx + 1 } ∨
    printlnW fail w = { w with idx := w.idx + 1, out := w.out ++ ["\n"] } := by
  unfold printlnW wwrite
  split
  · exact Or.inl rfl
  · exact Or.inr rfl

theorem printlnN_shape (fail : Nat → Bool) (n : Nat) (w : W) :
    ∃ k, printlnN fail n w =
      { idx := w.idx + n, out := w.out ++ List.replicate k "\n", procs := w.procs } := by
  induction n generalizing w with
  | zero => exact ⟨0, W.eq_of _ _ rfl (by simp [printlnN]) rfl⟩
  | succ n ih =>
    have hstep : printlnN fail (n + 1) w = printlnN fail n (printlnW fail w) := rfl
    rcases printlnW_cases fail w with h | h
    · obtain ⟨k, hk⟩ := ih { w with idx := w.idx + 1 }
      refine ⟨k, ?_⟩
      rw [hstep, h, hk]
      exact W.eq_of _ _ (by show w.idx + 1 + n = w.idx + (n + 1); omega) rfl rfl
    · obtain ⟨k, hk⟩ := ih { w with idx := w.idx + 1, out := w.out ++ ["\n"] }
      refine ⟨k + 1, ?_⟩
      rw [hstep, h, hk]
      refine W.eq_of _ _ (by show w.idx + 1 + n = w.idx + (n + 1); omega) ?_ rfl
      show (w.out ++ ["\n"]) ++ List.replicate k "\n" = w.out ++ List.replicate (k + 1) "\n"
      simp [List.replicate_succ, List.append_assoc]

theorem printlnN_noFail (n : Nat) (w : W) :
    printlnN noFail n w =
      { idx := w.idx + n, out := w.out ++ List.replicate n "\n", procs := w.procs } := by
  induction n generalizing w with
  | zero => exact W.eq_of _ _ rfl (by simp [printlnN]) rfl
  | succ n ih =>
    have hstep : printlnN noFail (n + 1) w = printlnN noFail n (printlnW noFail w) := rfl
    have hw : printlnW noFail w = { w with idx := w.idx + 1, out := w.out ++ ["\n"] } := rfl
    rw [hstep, hw, ih]
    refine W.eq_of _ _ (by show w.idx + 1 + n = w.idx + (n + 1); omega) ?_ rfl
    show (w.out ++ ["\n"]) ++ List.replicate n "\n" = w.out ++ List.replicate (n + 1) "\n"
    simp [List.replicate_succ, List.append_assoc]

theorem printlnN_ok (fail : Nat → Bool) (n : Nat) (w : W)
    (h : ∀ k, w.idx ≤ k → k < w.idx + n → fail k = false) :
    printlnN fail n w =
      { idx := w.idx + n, out := w.out ++ List.replicate n "\n", procs := w.procs } := by
  induction n generalizing w with
  | zero => exact W.eq_of _ _ rfl (by simp [printlnN]) rfl
  | succ n ih =>
    have hstep : printlnN fail (n + 1) w = printlnN fail n (printlnW fail w) := rfl
    have hw0 : fail w.idx = false := h w.idx (Nat.le_refl _) (by omega)
    have hw : printlnW fail w = { w with idx := w.idx + 1, out := w.out ++ ["\n"] } := by
      unfold printlnW
      simp [wwrite, hw0]
    rw [hstep, hw, ih]
    · refine W.eq_of _ _ (by show w.idx + 1 + n = w.idx + (n + 1); omega) ?_ rfl
      show (w.out ++ ["\n"]) ++ List.replicate n "\n" = w.out ++ List.replicate (n + 1) "\n"
      simp [List.replicate_succ, List.append_assoc]
    · intro k hk1 hk2
      exact h k (by simp at hk1; omega) (by simp at hk2; omega)

/-! ## Helper lemmas: chunking -/

theorem chunksOf_nil : chunksOf [] = [] := by simp [chunksOf]

theorem chunksOf_cons (a : Char) (l : List Char) :
    chunksOf (a :: l) =
      (a :: l).take chunkSize :: chunksOf ((a :: l).drop chunkSize) := by
  rw [chunksOf]

theorem chunksOf_eq_nil {l : List Char} : chunksOf l = [] ↔ l = [] := by
  cases l with
  | nil => simp [chunksOf_nil]
  | cons a t => simp [chunksOf_cons]

theorem chunksOf_length (l : List Char) :
    (chunksOf l).length = (l.length + 4095) / 4096 := by
  induction l using chunksOf.induct with
  | case1 => simp [chunksOf_nil]
  | case2 a t ih =>
    rw [chunksOf_cons, List.length_cons, ih]
    simp only [List.length_drop, List.length_cons, chunkSize]
    omega

theorem chunksOf_subset (l : List Char) :
    ∀ ch ∈ chunksOf l, ∀ c ∈ ch, c ∈ l := by
  induction l using chunksOf.induct with
  | case1 => simp [chunksOf_nil]
  | case2 a t ih =>
    rw [chunksOf_cons]
    intro ch hch c hc
    rcases List.mem_cons.mp hch with rfl | h
    · exact List.take_subset _ _ hc
    · exact List.drop_subset _ _ (ih ch h c hc)

/-! ## Helper lemmas: base64 -/

theorem base64Encode_length (data : List Nat) :
    (base64Encode data).length = 4 * ((data.length + 2) / 3) := by
  induction data using base64Encode.induct with
  | case1 => simp [base64Encode]
  | case2 b0 => simp [base64Encode]
  | case3 b0 b1 => simp [base64Encode]
  | case4 b0 b1 b2 rest ih =>
    simp only [base64Encode, List.length_cons, List.length, ih]
    omega

theorem base64Encode_eq_nil {data : List Nat} : base64Encode data = [] ↔ data = [] := by
  cases data with
  | nil => simp [base64Encode]
  | cons a t =>
    cases t with
    | nil => simp [base64Encode]
    | cons b u => cases u <;> simp [base64Encode]

theorem b64Char_ne_esc (k : Nat) : b64Char k ≠ '\x1b' := by
  by_cases h : k < 64
  · have hall : ∀ k, k < 64 → b64Char k ≠ '\x1b' := by decide
    exact hall k h
  · have hlen : base64Alphabet.data.length ≤ k := by
      have h64 : base64Alphabet.data.length = 64 := by decide
      omega
    have hA : base64Alphabet.data.getD k 'A' = 'A' := by
      simp [List.getD, List.getElem?_eq_none hlen]
    unfold b64Char
    rw [hA]
    decide

theorem base64Encode_ne_esc (data : List Nat) :
    ∀ c ∈ base64Encode data, c ≠ '\x1b' := by
  induction data using base64Encode.induct with
  | case1 => simp [base64Encode]
  | case2 b0 =>
    intro c hc
    simp only [base64Encode, List.mem_cons, List.not_mem_nil, or_false] at hc
    rcases hc with rfl | rfl | rfl | rfl
    · exact b64Char_ne_esc _
    · exact b64Char_ne_esc _
    · decide
    · decide
  | case3 b0 b1 =>
    intro c hc
    simp only [base64Encode, List.mem_cons, List.not_mem_nil, or_false] at hc
    rcases hc with rfl | rfl | rfl | rfl
    · exact b64Char_ne_esc _
    · exact b64Char_ne_esc _
    · exact b64Char_ne_esc _
    · decide
  | case4 b0 b1 b2 rest ih =>
    intro c hc
    simp only [base64Encode, List.mem_cons] at hc
    rcases hc with rfl | rfl | rfl | rfl | hc
    · exact b64Char_ne_esc _
    · exact b64Char_ne_esc _
    · exact b64Char_ne_esc _
    · exact b64Char_ne_esc _
    · exact ih c hc

/-! ## Helper lemmas: decimal digits contain no ESC -/

theorem digitChar_lt10_ne_esc : ∀ m, m < 10 → Nat.digitChar m ≠ '\x1b' := by decide

theorem toDigitsCore_ne_esc (fuel : Nat) :
    ∀ (n : Nat) (ds : List Char), (∀ c ∈ ds, c ≠ '\x1b') →
      ∀ c ∈ Nat.toDigitsCore 10 fuel n ds, c ≠ '\x1b' := by
  induction fuel with
  | zero => intro n ds hds; simpa [Nat.toDigitsCore] using hds
  | succ fuel ih =>
    intro n ds hds c hc
    have hd : Nat.digitChar (n % 10) ≠ '\x1b' :=
      digitChar_lt10_ne_esc _ (Nat.mod_lt _ (by norm_num))
    simp only [Nat.toDigitsCore] at hc
    split at hc
    · rcases List.mem_cons.mp hc with rfl | h
      · exact hd
      · exact hds _ h
    · refine ih _ _ ?_ c hc
      intro c' hc'
      rcases List.mem_cons.mp hc' with rfl | h
      · exact hd
      · exact hds _ h

theorem natToString_ne_esc (n : Nat) : ∀ c ∈ (toString n).data, c ≠ '\x1b' := by
  have hrepr : (toString n).data = Nat.toDigits 10 n := rfl
  rw [hrepr, Nat.toDigits]
  exact toDigitsCore_ne_esc _ _ _ (by simp)

/-! ## Helper lemmas: the Kitty headers and the spec-side sequences -/

theorem firstHeader_eq (cols rows : Nat) (m : String) (chunk : List Char) :
    "\x1b_Ga=T,f=100,t=d,q=2,c=" ++ toString cols ++ ",r=" ++ toString rows ++
      ",m=" ++ m ++ ";" ++ String.mk chunk ++ "\x1b\\" =
    kittySpecSeq (firstKeys cols rows m) chunk := by
  simp [kittySpecSeq, firstKeys, ← String.append_assoc]

theorem contHeader_eq (m : String) (chunk : List Char) :
    "\x1b_G" ++ "m=" ++ m ++ ";" ++ String.mk chunk ++ "\x1b\\" =
    kittySpecSeq (contKeys m) chunk := by
  simp [kittySpecSeq, contKeys, ← String.append_assoc]

theorem kittySpecSeq_shape (keys : String) (c : List Char) :
    ∃ mid, kittySpecSeq keys c = "\x1b_G" ++ mid ++ "\x1b\\" :=
  ⟨keys ++ ";" ++ String.mk c, by simp [kittySpecSeq, String.append_assoc]⟩

theorem kittySpecSeq_shape_esc (keys : String) (c : List Char)
    (hk : ∀ ch ∈ keys.data, ch ≠ '\x1b') (hc : ∀ ch ∈ c, ch ≠ '\x1b') :
    ∃ mid, kittySpecSeq keys c = "\x1b_G" ++ mid ++ "\x1b\\" ∧
      ∀ ch ∈ mid.data, ch ≠ '\x1b' := by
  refine ⟨keys ++ ";" ++ String.mk c, by simp [kittySpecSeq, String.append_assoc], ?_⟩
  intro ch hch
  simp only [String.data_append, List.mem_append] at hch
  rcases hch with (h | h) | h
  · exact hk ch h
  · have : ∀ x ∈ (";" : String).data, x ≠ '\x1b' := by decide
    exact this ch h
  · exact hc ch h

theorem firstKeys_ne_esc (cols rows : Nat) (m : String)
    (hm : ∀ c ∈ m.data, c ≠ '\x1b') :
    ∀ c ∈ (firstKeys cols rows m).data, c ≠ '\x1b' := by
  intro c hc
  simp only [firstKeys, String.data_append, List.mem_append] at hc
  have hlit1 : ∀ x ∈ ("a=T,f=100,t=d,q=2,c=" : String).data, x ≠ '\x1b' := by decide
  have hlit2 : ∀ x ∈ (",r=" : String).data, x ≠ '\x1b' := by decide
  have hlit3 : ∀ x ∈ (",m=" : String).data, x ≠ '\x1b' := by decide
  rcases hc with ((((h | h) | h) | h) | h) | h
  · exact hlit1 c h
  · exact natToString_ne_esc _ c h
  · exact hlit2 c h
  · exact natToString_ne_esc _ c h
  · exact hlit3 c h
  · exact hm c h

theorem contKeys_ne_esc (m : String) (hm : ∀ c ∈ m.data, c ≠ '\x1b') :
    ∀ c ∈ (contKeys m).data, c ≠ '\x1b' := by
  intro c hc
  simp only [contKeys, String.data_append, List.mem_append] at hc
  rcases hc with h | h
  · have : ∀ x ∈ ("m=" : String).data, x ≠ '\x1b' := by decide
    exact this c h
  · exact hm c h

theorem kittySpecAux_shape (cols rows : Nat) :
    ∀ (cs : List (List Char)) (first : Bool),
      (∀ ch ∈ cs, ∀ c ∈ ch, c ≠ '\x1b') →
      ∀ s ∈ kittySpecAux cols rows first cs,
        ∃ mid, s = "\x1b_G" ++ mid ++ "\x1b\\" ∧ ∀ c ∈ mid.data, c ≠ '\x1b' := by
  intro cs
  induction cs with
  | nil => simp [kittySpecAux]
  | cons c cs ih =>
    intro first hcs s hs
    have hm0 : ∀ x ∈ ("0" : String).data, x ≠ '\x1b' := by decide
    have hm1 : ∀ x ∈ ("1" : String).data, x ≠ '\x1b' := by decide
    have hkeys : ∀ (m : String), (∀ x ∈ m.data, x ≠ '\x1b') →
        ∀ x ∈ (if first then firstKeys cols rows m else contKeys m).data, x ≠ '\x1b' := by
      intro m hm
      cases first
      · simpa using contKeys_ne_esc m hm
      · simpa using firstKeys_ne_esc cols rows m hm
    have hc : ∀ x ∈ c, x ≠ '\x1b' := hcs c (List.mem_cons_self c cs)
    cases cs with
    | nil =>
      simp only [kittySpecAux, List.mem_singleton] at hs
      subst hs
      exact kittySpecSeq_shape_esc _ c (hkeys "0" hm0) hc
    | cons d ds =>
      simp only [kittySpecAux, List.mem_cons] at hs
      rcases hs with rfl | hs
      · exact kittySpecSeq_shape_esc _ c (hkeys "1" hm1) hc
      · refine ih false ?_ s hs
        intro ch hch
        exact hcs ch (List.mem_cons_of_mem _ hch)

/-! ## Helper lemmas: the Kitty loop -/

theorem wwrite_noFail (s : String) (w : W) :
    wwrite noFail s w = (none, { w with idx := w.idx + 1, out := w.out ++ [s] }) := rfl

theorem printlnW_procs (fail : Nat → Bool) (w : W) :
    (printlnW fail w).procs = w.procs := by
  rcases printlnW_cases fail w with h | h <;> rw [h]

theorem printlnN_procs (fail : Nat → Bool) (n : Nat) (w : W) :
    (printlnN fail n w).procs = w.procs := by
  obtain ⟨k, hk⟩ := printlnN_shape fail n w
  rw [hk]

theorem kittyHeader_eq (cols rows : Nat) (first : Bool) (mVal : String)
    (chunk : List Char) :
    kittyHeader cols rows first mVal chunk =
      kittySpecSeq (if first then firstKeys cols rows mVal else contKeys mVal)
        chunk := by
  cases first
  · simpa [kittyHeader] using contHeader_eq mVal chunk
  · simpa [kittyHeader] using firstHeader_eq cols rows mVal chunk

theorem kittyHeader_shape (cols rows : Nat) (first : Bool) (mVal : String)
    (chunk : List Char) :
    ∃ mid, kittyHeader cols rows first mVal chunk = "\x1b_G" ++ mid ++ "\x1b\\" := by
  rw [kittyHeader_eq]
  exact kittySpecSeq_shape _ _

theorem kittyLoop_step_ok {fail : Nat → Bool} {w : W} (hf : fail w.idx = false)
    (cols rows fuel : Nat) (a : Char) (t : List Char) (first : Bool) :
    kittyLoop cols rows fail (fuel + 1) (a :: t) first w =
      kittyLoop cols rows fail fuel ((a :: t).drop chunkSize) false
        ⟨w.idx + 1,
         w.out ++ [kittyHeader cols rows first
           (if ((a :: t).drop chunkSize).isEmpty then "0" else "1")
           ((a :: t).take chunkSize)],
         w.procs⟩ := by
  simp only [kittyLoop, wwrite, hf, Bool.false_eq_true, if_false]

theorem kittyLoop_step_fail {fail : Nat → Bool} {w : W} (hf : fail w.idx = true)
    (cols rows fuel : Nat) (a : Char) (t : List Char) (first : Bool) :
    kittyLoop cols rows fail (fuel + 1) (a :: t) first w =
      (some (.writeFail w.idx), ⟨w.idx + 1, w.out, w.procs⟩) := by
  simp only [kittyLoop, wwrite, hf, if_true]

theorem kittyLoop_procs (cols rows : Nat) (fail : Nat → Bool) :
    ∀ (fuel : Nat) (rem : List Char) (first : Bool) (w : W),
      ((kittyLoop cols rows fail fuel rem first w).2).procs = w.procs := by
  intro fuel
  induction fuel with
  | zero => intro rem first w; cases rem <;> rfl
  | succ fuel ih =>
    intro rem first w
    cases rem with
    | nil => rfl
    | cons a t =>
      simp only [kittyLoop]
      cases hf : fail w.idx
      · simp only [wwrite, hf, Bool.false_eq_true, if_false]
        exact ih _ _ _
      · simp only [wwrite, hf, if_true]

theorem kittyLoop_noFail (cols rows : Nat) :
    ∀ (fuel : Nat) (rem : List Char), rem.length ≤ fuel → ∀ (first : Bool) (w : W),
      kittyLoop cols rows noFail fuel rem first w =
        (none, { idx := w.idx + (chunksOf rem).length,
                 out := w.out ++ kittySpecAux cols rows first (chunksOf rem),
                 procs := w.procs }) := by
  intro fuel
  induction fuel with
  | zero =>
    intro rem hrem first w
    have hnil : rem = [] := by
      cases rem with
      | nil => rfl
      | cons a t => simp at hrem
    subst hnil
    rw [chunksOf_nil]
    exact congrArg (Prod.mk none) (W.eq_of _ _ rfl (by simp [kittySpecAux]) rfl)
  | succ fuel ih =>
    intro rem hrem first w
    cases rem with
    | nil =>
      rw [chunksOf_nil]
      exact congrArg (Prod.mk none) (W.eq_of _ _ rfl (by simp [kittySpecAux]) rfl)
    | cons a t =>
      have hrest : ((a :: t).drop chunkSize).length ≤ fuel := by
        simp only [List.length_cons] at hrem
        simp only [List.length_drop, List.length_cons, chunkSize]
        omega
      simp only [kittyLoop, wwrite_noFail]
      rw [ih _ hrest]
      rw [chunksOf_cons]
      by_cases hres : (a :: t).drop chunkSize = []
      · rw [hres, chunksOf_nil]
        refine congrArg (Prod.mk none) (W.eq_of _ _ ?_ ?_ rfl)
        · simp
        · simp [kittySpecAux, kittyHeader_eq]
      · obtain ⟨b, u, hbu⟩ : ∃ b u, (a :: t).drop chunkSize = b :: u := by
          cases hdrop : (a :: t).drop chunkSize with
          | nil => exact absurd hdrop hres
          | cons b u => exact ⟨b, u, rfl⟩
        have hne : ((a :: t).drop chunkSize).isEmpty = false := by
          rw [hbu]; rfl
        obtain ⟨c0, cs, hcs⟩ : ∃ c0 cs, chunksOf ((a :: t).drop chunkSize) = c0 :: cs := by
          rw [hbu, chunksOf_cons]
          exact ⟨_, _, rfl⟩
        rw [hne, hcs]
        refine congrArg (Prod.mk none) (W.eq_of _ _ ?_ ?_ rfl)
        · simp
          omega
        · simp [kittySpecAux, kittyHeader_eq, List.append_assoc]
theorem kittyLoop_out_shape (cols rows : Nat) (fail : Nat → Bool) :
    ∀ (fuel : Nat) (rem : List Char) (first : Bool) (w : W),
      ∃ Δ, ((kittyLoop cols rows fail fuel rem first w).2).out = w.out ++ Δ ∧
        ∀ s ∈ Δ, ∃ mid, s = "\x1b_G" ++ mid ++ "\x1b\\" := by
  intro fuel
  induction fuel with
  | zero =>
    intro rem first w
    refine ⟨[], ?_, by simp⟩
    cases rem <;> simp [kittyLoop]
  | succ fuel ih =>
    intro rem first w
    cases rem with
    | nil => exact ⟨[], by simp [kittyLoop], by simp⟩
    | cons a t =>
      cases hf : fail w.idx
      · rw [kittyLoop_step_ok hf cols rows fuel a t first]
        obtain ⟨Δ, hΔ, hmem⟩ := ih ((a :: t).drop chunkSize) false
          ⟨w.idx + 1,
           w.out ++ [kittyHeader cols rows first
             (if ((a :: t).drop chunkSize).isEmpty then "0" else "1")
             ((a :: t).take chunkSize)],
           w.procs⟩
        refine ⟨kittyHeader cols rows first
            (if ((a :: t).drop chunkSize).isEmpty then "0" else "1")
            ((a :: t).take chunkSize) :: Δ, ?_, ?_⟩
        · rw [hΔ]
          simp
        · intro s hs
          rcases List.mem_cons.mp hs with rfl | h
          · exact kittyHeader_shape _ _ _ _ _
          · exact hmem s h
      · rw [kittyLoop_step_fail hf cols rows fuel a t first]
        exact ⟨[], by simp, by simp⟩

/-! ## Helper lemmas: the three transmitters -/

theorem sendKittyPNG_noFail (env : Env) (data : List Nat) (hd : data ≠ []) (w : W) :
    sendKittyPNG env noFail data w =
      (none, { idx := w.idx + (chunksOf (base64Encode data)).length + 1,
               out := w.out ++ kittySpecAux (kittyCols env) (kittyRows env) true
                 (chunksOf (base64Encode data)) ++ ["\n"],
               procs := w.procs }) := by
  unfold sendKittyPNG
  rw [if_neg (by simpa using hd)]
  dsimp only
  rw [kittyLoop_noFail _ _ _ _ (Nat.le_refl _)]
  rfl

theorem sendKittyPNG_procs (env : Env) (fail : Nat → Bool) (data : List Nat) (w : W) :
    ((sendKittyPNG env fail data w).2).procs = w.procs := by
  unfold sendKittyPNG
  split
  · rfl
  · dsimp only
    split
    · next heq =>
      have h := kittyLoop_procs (kittyCols env) (kittyRows env) fail
        (base64Encode data).length (base64Encode data) true w
      rw [heq] at h
      exact h
    · next heq =>
      have h := kittyLoop_procs (kittyCols env) (kittyRows env) fail
        (base64Encode data).length (base64Encode data) true w
      rw [heq] at h
      simpa [printlnW_procs] using h

theorem sendKittyPNG_out_shape (env : Env) (fail : Nat → Bool) (data : List Nat)
    (w : W) :
    ∃ Δ, ((sendKittyPNG env fail data w).2).out = w.out ++ Δ ∧
      ∀ s ∈ Δ, s = "\n" ∨ ∃ mid, s = "\x1b_G" ++ mid ++ "\x1b\\" := by
  unfold sendKittyPNG
  split
  · exact ⟨[], by simp, by simp⟩
  · obtain ⟨Δ, hΔ, hmem⟩ := kittyLoop_out_shape (kittyCols env) (kittyRows env) fail
      (base64Encode data).length (base64Encode data) true w
    dsimp only
    split
    · next heq =>
      rw [heq] at hΔ
      exact ⟨Δ, hΔ, fun s hs => Or.inr (hmem s hs)⟩
    · next w1 heq =>
      rw [heq] at hΔ
      simp only at hΔ
      rcases printlnW_cases fail w1 with h | h
      · refine ⟨Δ, ?_, fun s hs => Or.inr (hmem s hs)⟩
        show (printlnW fail w1).out = w.out ++ Δ
        rw [h]
        exact hΔ
      · refine ⟨Δ ++ ["\n"], ?_, ?_⟩
        · show (printlnW fail w1).out = w.out ++ (Δ ++ ["\n"])
          rw [h]
          show w1.out ++ ["\n"] = w.out ++ (Δ ++ ["\n"])
          rw [hΔ, List.append_assoc]
        · intro s hs
          rcases List.mem_append.mp hs with h1 | h1
          · exact Or.inr (hmem s h1)
          · simp only [List.mem_singleton] at h1
            exact Or.inl h1
theorem wwrite_if_ok {fail : Nat → Bool} {w : W} (hf : fail w.idx = false)
    (s : String) :
    wwrite fail s w = (none, ⟨w.idx + 1, w.out ++ [s], w.procs⟩) := by
  simp [wwrite, hf]

theorem wwrite_if_fail {fail : Nat → Bool} {w : W} (hf : fail w.idx = true)
    (s : String) :
    wwrite fail s w = (some (.writeFail w.idx), ⟨w.idx + 1, w.out, w.procs⟩) := by
  simp [wwrite, hf]

/-- Resolving `sendInlineImagePNG` on non-empty data into its two effects:
the single escape-sequence write and the unconditional 20 `Println`s.  The
escape sequence the code builds is definitionally the spec-side
`inlineOSCSpecSeq` applied to the raw byte length and the base64 payload. -/
theorem sendInlineImagePNG_eq (fail : Nat → Bool) (data : List Nat)
    (hd : data ≠ []) (w : W) :
    sendInlineImagePNG fail data w =
      ((wwrite fail (inlineOSCSpecSeq data.length (String.mk (base64Encode data))) w).1,
        printlnN fail 20
          ((wwrite fail (inlineOSCSpecSeq data.length (String.mk (base64Encode data))) w).2)) := by
  unfold sendInlineImagePNG
  rw [if_neg (by simpa using hd)]
  rfl

theorem sendInlineImagePNG_procs (fail : Nat → Bool) (data : List Nat) (w : W) :
    ((sendInlineImagePNG fail data w).2).procs = w.procs := by
  unfold sendInlineImagePNG
  split
  · rfl
  · dsimp only
    cases hf : fail w.idx
    · rw [wwrite_if_ok hf]
      dsimp only
      rw [printlnN_procs]
    · rw [wwrite_if_fail hf]
      dsimp only
      rw [printlnN_procs]

/-! ## Empty-bitmap short-circuits -/

theorem sendKittyPNG_empty (env : Env) (fail : Nat → Bool) (w : W) :
    sendKittyPNG env fail [] w = (some .noData, w) := rfl

theorem sendInlineImagePNG_empty (fail : Nat → Bool) (w : W) :
    sendInlineImagePNG fail [] w = (some .noData, w) := rfl

theorem sendSixelPNG_empty (fail : Nat → Bool) (world : World) (w : W) :
    sendSixelPNG fail world [] w = (some .noData, w) := rfl
/-! ## Concrete inputs used by witnesses and counterexamples -/

/-- A world in which both external Sixel renderers fail to run. -/
def worldNone : World := ⟨false, "", false, ""⟩

/-- An environment in which all three capability rule-sets match. -/
def envAll : Env :=
  [("KITTY_WINDOW_ID", "1"), ("TERM_PROGRAM", "WezTerm"), ("SIXEL_PREVIEW", "1")]

/-- Kitty- and inline-capable, not Sixel-capable. -/
def envKI : Env := [("KITTY_WINDOW_ID", "1"), ("TERM_PROGRAM", "WezTerm")]

/-- A write oracle failing exactly the first write call. -/
def failFirst : Nat → Bool := fun n => n == 0

/-- A write oracle failing exactly the second write call. -/
def failSecond : Nat → Bool := fun n => n == 1

/-! ## Claim theorems -/

/-- C9: for a nil wand, `PreviewWand` returns the "nil wand" error
immediately: the stream is untouched, no transmitter is attempted, and the
result does not depend on the environment (so no capability probing can have
influenced it). -/
theorem C9_nil_wand (env : Env) (fail : Nat → Bool) (world : World) (w : W) :
    PreviewWand env fail world none w = (some .nilWand, w, []) ∧
    errMessage .nilWand = "nil wand" :=
  ⟨rfl, rfl⟩

/-- C5: when none of the three detection rule-sets matches,
`PreviewSupported` is false and `PreviewWand` on a non-nil wand returns the
"no supported terminal preview protocol detected" error with the stream
untouched and no transmitter attempted. -/
theorem C5_no_protocol (env : Env) (fail : Nat → Bool) (world : World)
    (blob : List Nat) (w : W)
    (hk : isKitty env = false) (hi : isInlineImageCapable env = false)
    (hs : isSixelCapable env = false) :
    PreviewSupported env = false ∧
    PreviewWand env fail world (some blob) w = (some .noProtocol, w, []) ∧
    errMessage .noProtocol = "no supported terminal preview protocol detected" := by
  have hsup : PreviewSupported env = false := by
    simp [PreviewSupported, hk, hi, hs]
  refine ⟨hsup, ?_, rfl⟩
  unfold PreviewWand
  rw [hsup]
  rfl

theorem C5_no_protocol_witness :
    PreviewSupported [] = false ∧
    PreviewWand [] noFail worldNone (some [1]) W0 = (some .noProtocol, W0, []) ∧
    errMessage .noProtocol = "no supported terminal preview protocol detected" :=
  C5_no_protocol [] noFail worldNone [1] W0 (by decide) (by decide) (by decide)

/-- C8: each transmitter rejects the empty bitmap at once: the returned
stream state is the input state, so no byte was written and no external
process was started. -/
theorem C8_empty_bitmap (env : Env) (fail : Nat → Bool) (world : World) (w : W) :
    sendKittyPNG env fail [] w = (some .noData, w) ∧
    sendInlineImagePNG fail [] w = (some .noData, w) ∧
    sendSixelPNG fail world [] w = (some .noData, w) :=
  ⟨sendKittyPNG_empty env fail w, sendInlineImagePNG_empty fail w,
   sendSixelPNG_empty fail world w⟩

/-- A plain digit run denoting a value beyond the 64-bit int range makes
`strconv.Atoi` fail with `ErrRange`. -/
theorem goAtoi_digits_overflow (s : String) (n : Nat)
    (hd : digitsToNat s.data = some n) (hn : int64Max < n) : goAtoi s = none := by
  unfold goAtoi
  cases hdata : s.data with
  | nil => rfl
  | cons c rest =>
    rw [hdata] at hd
    have hc : c.isDigit = true := by
      by_contra hcd
      have hcd' : c.isDigit = false := by
        cases h : c.isDigit
        · rfl
        · exact absurd h hcd
      simp [digitsToNat, digitsVal, hcd'] at hd
    have hcp : (c == '+') = false := by
      cases h : c == '+'
      · rfl
      · exfalso
        have hceq : c = '+' := by simpa using h
        rw [hceq] at hc
        exact absurd hc (by decide)
    have hcm : (c == '-') = false := by
      cases h : c == '-'
      · rfl
      · exfalso
        have hceq : c = '-' := by simpa using h
        rw [hceq] at hc
        exact absurd hc (by decide)
    dsimp only
    rw [if_neg (by simp [hcp]), if_neg (by simp [hcm]), hd]
    rw [Option.some_bind]
    rw [if_neg (by omega)]

theorem kittyDim_cases (env : Env) (key : String) (dflt : Nat) :
    (getEnv env key = "" → kittyDim env key dflt = dflt) ∧
    (∀ n : Int, goAtoi (getEnv env key) = some n → 0 < n →
      kittyDim env key dflt = n.toNat) ∧
    (∀ n : Int, goAtoi (getEnv env key) = some n → n ≤ 0 →
      kittyDim env key dflt = dflt) ∧
    (goAtoi (getEnv env key) = none → kittyDim env key dflt = dflt) ∧
    (∀ n : Nat, digitsToNat (getEnv env key).data = some n → int64Max < n →
      kittyDim env key dflt = dflt) := by
  have hatoi_empty : goAtoi "" = none := rfl
  have hnone : goAtoi (getEnv env key) = none → kittyDim env key dflt = dflt := by
    intro hnone
    by_cases hv : getEnv env key = ""
    · simp [kittyDim, hv]
    · simp only [kittyDim, bne_iff_ne, ne_eq, hv, not_false_eq_true, if_true, hnone]
  refine ⟨?_, ?_, ?_, hnone, ?_⟩
  · intro h
    simp [kittyDim, h]
  · intro n hsome hpos
    have hv : getEnv env key ≠ "" := by
      intro hv
      rw [hv, hatoi_empty] at hsome
      exact Option.noConfusion hsome
    simp only [kittyDim, bne_iff_ne, ne_eq, hv, not_false_eq_true, if_true, hsome]
    rw [if_pos hpos]
  · intro n hsome hle
    have hv : getEnv env key ≠ "" := by
      intro hv
      rw [hv, hatoi_empty] at hsome
      exact Option.noConfusion hsome
    simp only [kittyDim, bne_iff_ne, ne_eq, hv, not_false_eq_true, if_true, hsome]
    rw [if_neg (by omega)]
  · intro n hd hn
    exact hnone (goAtoi_digits_overflow _ n hd hn)

/-- C7 counterexample: the value "10000000000000000000" denotes the positive
integer 10^19, yet it exceeds the 64-bit int range, `strconv.Atoi` fails,
and the default of 40 is kept — refuting the claim that any positive-integer
value overrides the default. -/
theorem C7_counterexample :
    digitsToNat ("10000000000000000000" : String).data =
      some 10000000000000000000 ∧
    (0 : Nat) < 10000000000000000000 ∧
    goAtoi "10000000000000000000" = none ∧
    kittyCols [("KITTY_PREVIEW_COLS", "10000000000000000000")] = 40 ∧
    (40 : Nat) ≠ 10000000000000000000 := by
  refine ⟨by decide, by decide, by decide, by decide, by decide⟩

/-- C7 amended: the placement columns and rows used by `sendKittyPNG` default to 40
and 20; a value of `KITTY_PREVIEW_COLS` / `KITTY_PREVIEW_ROWS` parsing to a
positive integer overrides the default, while a non-positive or unparsable
value is ignored. -/
theorem C7_kitty_dims (env : Env) :
    (getEnv env "KITTY_PREVIEW_COLS" = "" → kittyCols env = 40) ∧
    (∀ n : Int, goAtoi (getEnv env "KITTY_PREVIEW_COLS") = some n → 0 < n →
      kittyCols env = n.toNat) ∧
    (∀ n : Int, goAtoi (getEnv env "KITTY_PREVIEW_COLS") = some n → n ≤ 0 →
      kittyCols env = 40) ∧
    (goAtoi (getEnv env "KITTY_PREVIEW_COLS") = none → kittyCols env = 40) ∧
    (∀ n : Nat, digitsToNat (getEnv env "KITTY_PREVIEW_COLS").data = some n →
      int64Max < n → kittyCols env = 40) ∧
    (getEnv env "KITTY_PREVIEW_ROWS" = "" → kittyRows env = 20) ∧
    (∀ n : Int, goAtoi (getEnv env "KITTY_PREVIEW_ROWS") = some n → 0 < n →
      kittyRows env = n.toNat) ∧
    (∀ n : Int, goAtoi (getEnv env "KITTY_PREVIEW_ROWS") = some n → n ≤ 0 →
      kittyRows env = 20) ∧
    (goAtoi (getEnv env "KITTY_PREVIEW_ROWS") = none → kittyRows env = 20) ∧
    (∀ n : Nat, digitsToNat (getEnv env "KITTY_PREVIEW_ROWS").data = some n →
      int64Max < n → kittyRows env = 20) := by
  obtain ⟨h1, h2, h3, h4, h5⟩ := kittyDim_cases env "KITTY_PREVIEW_COLS" 40
  obtain ⟨g1, g2, g3, g4, g5⟩ := kittyDim_cases env "KITTY_PREVIEW_ROWS" 20
  exact ⟨h1, h2, h3, h4, h5, g1, g2, g3, g4, g5⟩

theorem C7_kitty_dims_witness :
    kittyCols [("KITTY_PREVIEW_COLS", "0")] = 40 ∧
    kittyCols [("KITTY_PREVIEW_COLS", "-5")] = 40 ∧
    kittyCols [("KITTY_PREVIEW_COLS", "abc")] = 40 ∧
    kittyCols [("KITTY_PREVIEW_COLS", "10000000000000000000")] = 40 ∧
    kittyCols [] = 40 ∧
    kittyCols [("KITTY_PREVIEW_COLS", "13")] = 13 ∧
    kittyRows [("KITTY_PREVIEW_ROWS", "17")] = 17 ∧
    kittyRows [] = 20 :=
  ⟨(C7_kitty_dims _).2.2.1 0 (by decide) (by decide),
   (C7_kitty_dims _).2.2.1 (-5) (by decide) (by decide),
   (C7_kitty_dims _).2.2.2.1 (by decide),
   (C7_kitty_dims _).2.2.2.2.1 10000000000000000000 (by decide) (by decide),
   (C7_kitty_dims _).1 (by decide),
   (C7_kitty_dims _).2.1 13 (by decide) (by decide),
   (C7_kitty_dims _).2.2.2.2.2.2.1 17 (by decide) (by decide),
   (C7_kitty_dims _).2.2.2.2.2.1 (by decide)⟩

/-- C10: on a non-empty bitmap, when the write of the OSC-1337 escape
sequence itself fails (oracle failing write 0), `sendInlineImagePNG` still
performs its 20 trailing `Println`s — the 20 newlines land on the stream —
and only then returns that write error.  The error path is not output-free. -/
theorem C10_inline_newlines_on_error (data : List Nat) (hd : data ≠ []) :
    sendInlineImagePNG failFirst data W0 =
      (some (.writeFail 0), ⟨21, List.replicate 20 "\n", []⟩) := by
  rw [sendInlineImagePNG_eq failFirst data hd]
  rw [wwrite_if_fail (by decide)]
  decide

theorem C10_inline_newlines_on_error_witness :
    ([5] : List Nat) ≠ [] ∧
    sendInlineImagePNG failFirst [5] W0 =
      (some (.writeFail 0), ⟨21, List.replicate 20 "\n", []⟩) :=
  ⟨by decide, C10_inline_newlines_on_error [5] (by decide)⟩

/-- C6: on a non-empty bitmap with no write failure, `sendInlineImagePNG`
writes exactly one escape sequence, of the spec form
`ESC ] 1337 ; File=inline=1;size=<raw-byte-length> : <base64> BEL` — the
`size` field is the raw (pre-encoding) byte length — followed by 20
newlines. -/
theorem C6_inline_format (data : List Nat) (hd : data ≠ []) :
    sendInlineImagePNG noFail data W0 =
      (none, ⟨21, inlineOSCSpecSeq data.length (String.mk (base64Encode data)) ::
        List.replicate 20 "\n", []⟩) := by
  rw [sendInlineImagePNG_eq noFail data hd]
  rw [wwrite_if_ok (by decide)]
  dsimp only
  rw [printlnN_noFail]
  exact congrArg (Prod.mk none) (W.eq_of _ _ rfl (by simp [W0]) rfl)

theorem C6_inline_format_witness :
    (List.replicate 1000 (7 : Nat) ≠ []) ∧
    (List.replicate 1000 (7 : Nat)).length = 1000 ∧
    (base64Encode (List.replicate 1000 (7 : Nat))).length = 1336 ∧
    sendInlineImagePNG noFail (List.replicate 1000 (7 : Nat)) W0 =
      (none, ⟨21, inlineOSCSpecSeq 1000
          (String.mk (base64Encode (List.replicate 1000 (7 : Nat)))) ::
        List.replicate 20 "\n", []⟩) := by
  have hne : List.replicate 1000 (7 : Nat) ≠ [] := by
    intro h
    have h2 := congrArg List.length h
    rw [List.length_replicate, List.length_nil] at h2
    exact absurd h2 (by norm_num)
  refine ⟨hne, by rw [List.length_replicate], ?_, ?_⟩
  · rw [base64Encode_length, List.length_replicate]
  · have h := C6_inline_format (List.replicate 1000 (7 : Nat)) hne
    rw [List.length_replicate] at h
    exact h
/-- C2: on a non-empty bitmap with no write failure, `sendKittyPNG` emits
exactly the spec-side Kitty control sequences for the `ceil(N/4096)` chunks
of the base64 payload — the first carrying the keys
`a=T,f=100,t=d,q=2,c=<cols>,r=<rows>,m`, later ones carrying only `m`, with
`m=1` on every chunk but the last and `m=0` on the last — followed by one
newline; every sequence starts with the APC opener, ends with the ST
terminator, and contains no further ESC character in between (so each
sequence is opened and closed exactly once). -/
theorem C2_kitty_chunking (env : Env) (data : List Nat) (hd : data ≠ []) :
    (sendKittyPNG env noFail data W0).1 = none ∧
    (sendKittyPNG env noFail data W0).2.out =
      kittySpecAux (kittyCols env) (kittyRows env) true
        (chunksOf (base64Encode data)) ++ ["\n"] ∧
    (chunksOf (base64Encode data)).length =
      ((base64Encode data).length + 4095) / 4096 ∧
    1 ≤ (chunksOf (base64Encode data)).length ∧
    (∀ s ∈ kittySpecAux (kittyCols env) (kittyRows env) true
        (chunksOf (base64Encode data)),
      ∃ mid, s = "\x1b_G" ++ mid ++ "\x1b\\" ∧ ∀ c ∈ mid.data, c ≠ '\x1b') := by
  have h := sendKittyPNG_noFail env data hd W0
  refine ⟨by rw [h], ?_, chunksOf_length _, ?_, ?_⟩
  · rw [h]
    simp [W0]
  · rw [chunksOf_length]
    have hlen := base64Encode_length data
    have hpos : 1 ≤ data.length := List.length_pos.mpr hd
    omega
  · refine kittySpecAux_shape _ _ _ true ?_
    intro ch hch c hc
    exact base64Encode_ne_esc data c (chunksOf_subset _ ch hch c hc)

theorem C2_kitty_chunking_witness :
    (([137] : List Nat) ≠ []) ∧
    (sendKittyPNG [] noFail [137] W0).1 = none ∧
    (chunksOf (base64Encode [137])).length = 1 :=
  ⟨by decide, (C2_kitty_chunking [] [137] (by decide)).1, by
    have h := (C2_kitty_chunking [] [137] (by decide)).2.2.1
    rw [h]
    decide⟩

/-- C4: with all three capabilities present, if the Kitty transmitter fails
and the inline-OSC transmitter then succeeds, `PreviewWand` returns success
with exactly the attempts Kitty (failed) then inline (succeeded): the Sixel
transmitter is never attempted and no external process is started. -/
theorem C4_fallback_inline (env : Env) (fail : Nat → Bool) (world : World)
    (blob : List Nat) (w : W) (e : Err)
    (hk : isKitty env = true) (hi : isInlineImageCapable env = true)
    (_hs : isSixelCapable env = true) (hb : blob ≠ [])
    (hkf : (sendKittyPNG env fail blob w).1 = some e)
    (his : (sendInlineImagePNG fail blob ((sendKittyPNG env fail blob w).2)).1 = none) :
    PreviewWand env fail world (some blob) w =
      (none, (sendInlineImagePNG fail blob ((sendKittyPNG env fail blob w).2)).2,
        [(.kitty, some e), (.inlineOSC, none)]) ∧
    ((sendInlineImagePNG fail blob ((sendKittyPNG env fail blob w).2)).2).procs =
      w.procs := by
  constructor
  · have hsup : PreviewSupported env = true := by
      simp [PreviewSupported, hk]
    have hlen : ¬blob.length = 0 := by simpa using hb
    cases hks : sendKittyPNG env fail blob w with
    | mk r1 w1 =>
      rw [hks] at hkf his
      dsimp only at hkf his
      subst hkf
      cases his2 : sendInlineImagePNG fail blob w1 with
      | mk r2 w2 =>
        rw [his2] at his
        dsimp only at his
        subst his
        unfold PreviewWand
        simp [hsup, hk, hi, hks, his2, hlen]
  · rw [sendInlineImagePNG_procs, sendKittyPNG_procs]
theorem C4_fallback_inline_witness :
    isKitty envAll = true ∧ isInlineImageCapable envAll = true ∧
    isSixelCapable envAll = true ∧
    PreviewWand envAll failFirst worldNone (some [1, 2, 3]) W0 =
      (none, (sendInlineImagePNG failFirst [1, 2, 3]
          ((sendKittyPNG envAll failFirst [1, 2, 3] W0).2)).2,
        [(.kitty, some (.writeFail 0)), (.inlineOSC, none)]) ∧
    ((sendInlineImagePNG failFirst [1, 2, 3]
        ((sendKittyPNG envAll failFirst [1, 2, 3] W0).2)).2).procs = W0.procs :=
  ⟨by decide, by decide, by decide,
   (C4_fallback_inline envAll failFirst worldNone [1, 2, 3] W0 (.writeFail 0)
     (by decide) (by decide) (by decide) (by decide) (by decide) (by decide)).1,
   (C4_fallback_inline envAll failFirst worldNone [1, 2, 3] W0 (.writeFail 0)
     (by decide) (by decide) (by decide) (by decide) (by decide) (by decide)).2⟩

/-- C1 counterexample: with all three protocols capable, every write failing
and both external renderers failing, the last transmitter attempted is Sixel
and its failure is the error of write 22; yet `PreviewWand` returns the
Kitty (first) transmitter's failure wrapped — not the Sixel failure in any
form.  This refutes the claim that the most-downstream failure is returned. -/
theorem C1_counterexample :
    (PreviewWand envAll (fun _ => true) worldNone (some [1, 2, 3]) W0).1 =
      some (.kittyFailed (.writeFail 0)) ∧
    (PreviewWand envAll (fun _ => true) worldNone (some [1, 2, 3]) W0).2.2.getLast? =
      some (.sixel, some (.writeFail 22)) ∧
    Err.kittyFailed (.writeFail 0) ≠ Err.writeFail 22 ∧
    Err.kittyFailed (.writeFail 0) ≠ Err.sixelFailed (.writeFail 22) :=
  ⟨by decide, by decide, by decide, by decide⟩

/-- C1 amended: when the primary protocol's transmitter fails and the result
of the call is an error, the error returned is the primary transmitter's own
failure wrapped with its protocol label — the failures of the fallback
transmitters attempted afterwards are never surfaced. -/
theorem C1_primary_error_surfaced (env : Env) (fail : Nat → Bool) (world : World)
    (blob : List Nat) (w : W) (err : Err)
    (h : (PreviewWand env fail world (some blob) w).1 = some err)
    (hsup : PreviewSupported env = true) (hb : blob ≠ []) :
    (isKitty env = true →
      ∃ e, (sendKittyPNG env fail blob w).1 = some e ∧ err = .kittyFailed e) ∧
    (isKitty env = false → isInlineImageCapable env = true →
      ∃ e, (sendInlineImagePNG fail blob w).1 = some e ∧ err = .inlineFailed e) ∧
    (isKitty env = false → isInlineImageCapable env = false →
      isSixelCapable env = true →
      ∃ e, (sendSixelPNG fail world blob w).1 = some e ∧ err = .sixelFailed e) := by
  have hlen : ¬blob.length = 0 := by simpa using hb
  unfold PreviewWand at h
  dsimp only at h
  rw [if_neg (show ¬(PreviewSupported env = false) by simp [hsup])] at h
  rw [if_neg hlen] at h
  refine ⟨?_, ?_, ?_⟩
  · intro hk
    rw [if_pos hk] at h
    cases hks : sendKittyPNG env fail blob w with
    | mk r1 w1 =>
      rw [hks] at h
      cases r1 with
      | none => simp at h
      | some e =>
        dsimp only at h
        refine ⟨e, rfl, ?_⟩
        by_cases hi : isInlineImageCapable env = true
        · rw [if_pos hi] at h
          cases hin : sendInlineImagePNG fail blob w1 with
          | mk r2 w2 =>
            rw [hin] at h
            cases r2 with
            | none => simp at h
            | some e2 =>
              dsimp only at h
              by_cases hsx : isSixelCapable env = true
              · rw [if_pos hsx] at h
                cases hsxr : sendSixelPNG fail world blob w2 with
                | mk r3 w3 =>
                  rw [hsxr] at h
                  cases r3 with
                  | none => simp at h
                  | some e3 =>
                    dsimp only at h
                    exact (Option.some.inj h).symm
              · rw [if_neg hsx] at h
                dsimp only at h
                exact (Option.some.inj h).symm
        · rw [if_neg hi] at h
          by_cases hsx : isSixelCapable env = true
          · rw [if_pos hsx] at h
            cases hsxr : sendSixelPNG fail world blob w1 with
            | mk r3 w3 =>
              rw [hsxr] at h
              cases r3 with
              | none => simp at h
              | some e3 =>
                dsimp only at h
                exact (Option.some.inj h).symm
          · rw [if_neg hsx] at h
            dsimp only at h
            exact (Option.some.inj h).symm
  · intro hk hi
    rw [if_neg (by simp [hk])] at h
    rw [if_pos hi] at h
    cases hin : sendInlineImagePNG fail blob w with
    | mk r1 w1 =>
      rw [hin] at h
      cases r1 with
      | none => simp at h
      | some e =>
        dsimp only at h
        refine ⟨e, rfl, ?_⟩
        by_cases hsx : isSixelCapable env = true
        · rw [if_pos hsx] at h
          cases hsxr : sendSixelPNG fail world blob w1 with
          | mk r2 w2 =>
            rw [hsxr] at h
            cases r2 with
            | none => simp at h
            | some e2 =>
              dsimp only at h
              exact (Option.some.inj h).symm
        · rw [if_neg hsx] at h
          dsimp only at h
          exact (Option.some.inj h).symm
  · intro hk hi hsx
    rw [if_neg (by simp [hk])] at h
    rw [if_neg (by simp [hi])] at h
    rw [if_pos hsx] at h
    cases hsxr : sendSixelPNG fail world blob w with
    | mk r1 w1 =>
      rw [hsxr] at h
      cases r1 with
      | none => simp at h
      | some e =>
        dsimp only at h
        exact ⟨e, rfl, (Option.some.inj h).symm⟩

theorem C1_primary_error_surfaced_witness :
    PreviewSupported envAll = true ∧
    (PreviewWand envAll (fun _ => true) worldNone (some [1, 2, 3]) W0).1 =
      some (.kittyFailed (.writeFail 0)) ∧
    (isKitty envAll = true →
      ∃ e, (sendKittyPNG envAll (fun _ => true) [1, 2, 3] W0).1 = some e ∧
        Err.kittyFailed (.writeFail 0) = .kittyFailed e) :=
  ⟨by decide, by decide,
   (C1_primary_error_surfaced envAll (fun _ => true) worldNone [1, 2, 3] W0
     (.kittyFailed (.writeFail 0)) (by decide) (by decide) (by decide)).1⟩

/-- C3 amended: per preview call at most one transmitter succeeds (the
orchestrator stops at the first success), and the Kitty transmitter never
leaves an opened control sequence unterminated: whatever the write oracle
does, everything `sendKittyPNG` adds to the stream is either a newline or a
complete `ESC _G … ESC \` sequence.  (The original claim's "at most one
transmitter's output is written" is refuted by `C3_counterexample`: a
part-way-failed transmitter's bytes stay on the stream and the
fallback's bytes follow them.) -/
theorem C3_single_success_and_termination :
    (∀ (env : Env) (fail : Nat → Bool) (world : World) (ow : Option (List Nat))
      (w : W),
      ((PreviewWand env fail world ow w).2.2.countP (fun x => x.2.isNone)) ≤ 1) ∧
    (∀ (env : Env) (fail : Nat → Bool) (data : List Nat) (w : W),
      ∃ Δ, ((sendKittyPNG env fail data w).2).out = w.out ++ Δ ∧
        ∀ s ∈ Δ, s = "\n" ∨ ∃ mid, s = "\x1b_G" ++ mid ++ "\x1b\\") := by
  constructor
  · intro env fail world ow w
    unfold PreviewWand
    rcases ow with _ | blob
    · simp [List.countP_nil]
    · repeat' split
      all_goals simp [List.countP_cons, List.countP_nil]
  · intro env fail data w
    exact sendKittyPNG_out_shape env fail data w
/-! ## C3 counterexample machinery -/

theorem wwrite_ok' (fail : Nat → Bool) (i : Nat) (o p : List String) (s : String)
    (hf : fail i = false) :
    wwrite fail s ⟨i, o, p⟩ = (none, ⟨i + 1, o ++ [s], p⟩) := by
  simp [wwrite, hf]

theorem printlnN_ok' (fail : Nat → Bool) (n i : Nat) (o p : List String)
    (h : ∀ k, i ≤ k → k < i + n → fail k = false) :
    printlnN fail n ⟨i, o, p⟩ = ⟨i + n, o ++ List.replicate n "\n", p⟩ :=
  printlnN_ok fail n ⟨i, o, p⟩ (by simpa using h)

theorem kittyLoop_step_fail' (fail : Nat → Bool) (cols rows fuel : Nat) (a : Char)
    (t : List Char) (first : Bool) (i : Nat) (o p : List String)
    (hf : fail i = true) :
    kittyLoop cols rows fail (fuel + 1) (a :: t) first ⟨i, o, p⟩ =
      (some (.writeFail i), ⟨i + 1, o, p⟩) :=
  kittyLoop_step_fail (w := ⟨i, o, p⟩) hf cols rows fuel a t first

/-- The 3073-byte bitmap: its base64 payload is 4100 characters, so the
Kitty transmitter needs two chunks. -/
def blob3073 : List Nat := List.replicate 3073 0

/-- C3 counterexample: Kitty and inline-OSC capable, write 1 (the second
Kitty chunk) fails.  The Kitty transmitter leaves its first control sequence
on the stream, the inline fallback then succeeds and its OSC-1337 sequence
follows on the same stream: the output of two different transmitters is
written in one preview call, refuting "at most one Transmitter's output is
written to the terminal stream per preview call". -/
theorem C3_counterexample :
    (PreviewWand envKI failSecond worldNone (some blob3073) W0).1 = none ∧
    (PreviewWand envKI failSecond worldNone (some blob3073) W0).2.2 =
      [(.kitty, some (.writeFail 1)), (.inlineOSC, none)] ∧
    (∃ s ∈ (PreviewWand envKI failSecond worldNone (some blob3073) W0).2.1.out,
      ∃ mid, s = "\x1b_G" ++ mid ++ "\x1b\\") ∧
    (∃ s ∈ (PreviewWand envKI failSecond worldNone (some blob3073) W0).2.1.out,
      ∃ rest, s = "\x1b]1337" ++ rest) := by
  have hk : isKitty envKI = true := by decide
  have hi : isInlineImageCapable envKI = true := by decide
  have hblen : blob3073.length = 3073 := by
    unfold blob3073
    rw [List.length_replicate]
  have hbne : ¬blob3073.length = 0 := by rw [hblen]; norm_num
  have hbne2 : blob3073 ≠ [] := by
    intro hnil
    rw [hnil] at hblen
    simp at hblen
  have hencl : (base64Encode blob3073).length = 4100 := by
    rw [base64Encode_length, hblen]
  obtain ⟨a, t, hat⟩ : ∃ a t, base64Encode blob3073 = a :: t := by
    cases hc : base64Encode blob3073 with
    | nil => rw [hc] at hencl; simp at hencl
    | cons a t => exact ⟨a, t, rfl⟩
  have htlen : t.length = 4099 := by
    rw [hat, List.length_cons] at hencl
    omega
  obtain ⟨b, u, hbu⟩ : ∃ b u, (a :: t).drop chunkSize = b :: u := by
    have hrestlen : ((a :: t).drop chunkSize).length = 4 := by
      simp only [List.length_drop, List.length_cons, htlen, chunkSize]
    cases hc : (a :: t).drop chunkSize with
    | nil => rw [hc] at hrestlen; simp at hrestlen
    | cons b u => exact ⟨b, u, rfl⟩
  have hmval : (if ((a :: t).drop chunkSize).isEmpty then "0" else "1") = "1" := by
    rw [hbu]
    rfl
  have hkitty : sendKittyPNG envKI failSecond blob3073 W0 =
      (some (.writeFail 1),
        ⟨2, [kittyHeader (kittyCols envKI) (kittyRows envKI) true "1"
          ((a :: t).take chunkSize)], []⟩) := by
    unfold sendKittyPNG
    rw [if_neg hbne]
    dsimp only
    rw [hat, List.length_cons, htlen]
    rw [kittyLoop_step_ok (show failSecond W0.idx = false from rfl)
      (kittyCols envKI) (kittyRows envKI) 4099 a t true]
    rw [hmval]
    rw [show (4099 : Nat) = 4098 + 1 from rfl]
    rw [hbu]
    rw [kittyLoop_step_fail' failSecond (kittyCols envKI) (kittyRows envKI) 4098 b u
      false (W0.idx + 1) _ _ rfl]
    rfl
  have hinline : sendInlineImagePNG failSecond blob3073
      (⟨2, [kittyHeader (kittyCols envKI) (kittyRows envKI) true "1"
        ((a :: t).take chunkSize)], []⟩ : W) =
      (none,
        ⟨23, kittyHeader (kittyCols envKI) (kittyRows envKI) true "1"
            ((a :: t).take chunkSize) ::
          inlineOSCSpecSeq blob3073.length (String.mk (base64Encode blob3073)) ::
          List.replicate 20 "\n", []⟩) := by
    rw [sendInlineImagePNG_eq failSecond blob3073 hbne2]
    rw [wwrite_ok' failSecond 2 _ _ _ rfl]
    dsimp only
    rw [printlnN_ok' failSecond 20 (2 + 1) _ _ ?hfree]
    case hfree =>
      intro k h1 h2
      show (k == 1) = false
      rw [beq_eq_false_iff_ne]
      omega
    rfl
  have hmain : PreviewWand envKI failSecond worldNone (some blob3073) W0 =
      (none,
        ⟨23, kittyHeader (kittyCols envKI) (kittyRows envKI) true "1"
            ((a :: t).take chunkSize) ::
          inlineOSCSpecSeq blob3073.length (String.mk (base64Encode blob3073)) ::
          List.replicate 20 "\n", []⟩,
        [(.kitty, some (.writeFail 1)), (.inlineOSC, none)]) := by
    unfold PreviewWand
    dsimp only
    rw [if_neg (show ¬(PreviewSupported envKI = false) by decide)]
    rw [if_neg hbne]
    rw [if_pos hk]
    rw [hkitty]
    dsimp only
    rw [if_pos hi]
    rw [hinline]
  refine ⟨by rw [hmain], by rw [hmain], ?_, ?_⟩
  · rw [hmain]
    refine ⟨kittyHeader (kittyCols envKI) (kittyRows envKI) true "1"
      ((a :: t).take chunkSize), List.mem_cons_self _ _, ?_⟩
    exact kittyHeader_shape _ _ _ _ _
  · rw [hmain]
    refine ⟨inlineOSCSpecSeq blob3073.length (String.mk (base64Encode blob3073)),
      List.mem_cons_of_mem _ (List.mem_cons_self _ _),
      ";File=inline=1;size=" ++ toString blob3073.length ++ ":" ++
        String.mk (base64Encode blob3073) ++ "\x07", ?_⟩
    rfl

end Termagick
